import Mathlib

/-!
Shallow embedding of the shopmart-backend order/inventory core.

The definitions below are translated from:
* `src/unnamed/part_002` — the Order mongoose schema (lines 3-62), the
  order-placement route `POST /api/orders` (lines 76-149), and the admin
  status-update route `PUT /admin/:id/status` with its cancellation
  restock branch (lines 183-227);
* `src/backend/routes/orderRoutes.js` — the same placement loop
  (lines 39-69) and status update (lines 133-162);
* `src/unnamed/part_003` — the product update route (price assignment);
* `src/backend/models/User.js` — the user schema (address field).

Mongo documents are modelled as association lists keyed by numeric ids;
`findById` returns the first binding, `saveById` writes a document back.
Stock and quantities are integers (`ℤ`), prices and totals are rationals
(`ℚ`); JavaScript `Number.prototype.toFixed(2)` is modelled as rounding
to the nearest hundredth with ties toward the larger value, following
ECMA-262.
-/

namespace ShopMart

/-- Product document: the richer schema variant with `stock`, which the
routes read and write (`product.stock`, `product.price`, `product.name`,
`product.image`).  The spec (§9) declares this variant canonical. -/
structure Product where
  name : String
  price : ℚ
  image : String
  stock : ℤ
deriving DecidableEq, Repr

/-- One line of `order.items` (orderSchema, part_002 lines 11-37). -/
structure OrderItem where
  productId : Nat
  name : String
  quantity : ℤ
  price : ℚ
  image : String
deriving DecidableEq, Repr

/-- Order document (orderSchema, part_002 lines 3-62). -/
structure Order where
  userId : Nat
  items : List OrderItem
  totalAmount : ℚ
  paymentMethod : String
  shippingAddress : String
  status : String
deriving DecidableEq, Repr

/-- A request cart line (`{ productId, quantity }` in `req.body.cartItems`). -/
structure CartLine where
  productId : Nat
  quantity : ℤ
deriving DecidableEq, Repr

/-- User document (src/backend/models/User.js): the fields the order
routes read (`user.address`, `user.cart`). -/
structure User where
  name : String
  address : String
  cart : List CartLine
deriving DecidableEq, Repr

/-- The database state shared by the routes. -/
structure State where
  products : List (Nat × Product)
  users : List (Nat × User)
  orders : List (Nat × Order)
deriving DecidableEq, Repr

/-- `Model.findById`: first binding for `id` in the collection. -/
def findById {α : Type} (l : List (Nat × α)) (id : Nat) : Option α :=
  match l with
  | [] => none
  | e :: rest => if e.1 = id then some e.2 else findById rest id

/-- `document.save()`: write the document back under its id. -/
def saveById {α : Type} (l : List (Nat × α)) (id : Nat) (a : α) : List (Nat × α) :=
  l.map fun e => if e.1 = id then (id, a) else e

theorem findById_mem {α : Type} {l : List (Nat × α)} {id : Nat} {a : α}
    (h : findById l id = some a) : (id, a) ∈ l := by
  induction l with
  | nil => simp [findById] at h
  | cons e rest ih =>
    rw [findById] at h
    split at h
    · rename_i he
      obtain ⟨rfl⟩ := h
      simp [← he]
    · simp [ih h]

theorem mem_saveById {α : Type} {l : List (Nat × α)} {id : Nat} {a : α}
    {e : Nat × α} (h : e ∈ saveById l id a) : e = (id, a) ∨ e ∈ l := by
  rw [saveById, List.mem_map] at h
  obtain ⟨x, hx, hfx⟩ := h
  by_cases hid : x.1 = id
  · simp only [hid, if_pos] at hfx
    exact Or.inl hfx.symm
  · simp only [hid, if_neg, not_false_iff] at hfx
    exact Or.inr (hfx ▸ hx)

theorem findById_saveById_self {α : Type} {l : List (Nat × α)} {id : Nat}
    {b : α} (a : α) (h : findById l id = some b) :
    findById (saveById l id a) id = some a := by
  induction l with
  | nil => simp [findById] at h
  | cons e rest ih =>
    rw [findById] at h
    by_cases he : e.1 = id
    · simp [saveById, findById, he]
    · rw [if_neg he] at h
      simpa [saveById, findById, he] using ih h

theorem saveById_of_findById_none {α : Type} {l : List (Nat × α)} {id : Nat}
    (a : α) (h : findById l id = none) : saveById l id a = l := by
  induction l with
  | nil => rfl
  | cons e rest ih =>
    rw [findById] at h
    by_cases he : e.1 = id
    · simp [he] at h
    · rw [if_neg he] at h
      simp [saveById, he] at ih ⊢
      exact ih h

theorem findById_saveById_ne {α : Type} {l : List (Nat × α)} {id id2 : Nat}
    (a : α) (h : id2 ≠ id) :
    findById (saveById l id a) id2 = findById l id2 := by
  induction l with
  | nil => rfl
  | cons e rest ih =>
    by_cases he : e.1 = id
    · have : ¬ id = id2 := fun hc => h hc.symm
      simp [saveById, findById, he, this] at ih ⊢
      exact ih
    · by_cases he2 : e.1 = id2
      · simp [saveById, findById, he, he2, h]
      · simp [saveById, findById, he, he2] at ih ⊢
        exact ih

theorem findById_saveById_none {α : Type} {l : List (Nat × α)} {id id2 : Nat}
    (a : α) (h : findById l id2 = none) :
    findById (saveById l id a) id2 = none := by
  by_cases hid : id2 = id
  · subst hid
    rw [saveById_of_findById_none a h]
    exact h
  · rw [findById_saveById_ne a hid]
    exact h

theorem findById_append_some {α : Type} {l l2 : List (Nat × α)} {id : Nat}
    {a : α} (h : findById l id = some a) :
    findById (l ++ l2) id = some a := by
  induction l with
  | nil => simp [findById] at h
  | cons e rest ih =>
    rw [findById] at h
    by_cases he : e.1 = id
    · simpa [findById, he] using h
    · rw [if_neg he] at h
      simpa [findById, he] using ih h

theorem findById_append_none {α : Type} {l l2 : List (Nat × α)} {id : Nat}
    (h : findById l id = none) :
    findById (l ++ l2) id = findById l2 id := by
  induction l with
  | nil => rfl
  | cons e rest ih =>
    rw [findById] at h
    by_cases he : e.1 = id
    · simp [he] at h
    · rw [if_neg he] at h
      simpa [findById, he] using ih h

/-! ## Stock Ledger operations (inlined in the routes) -/

/-- Typed result of a single-line reservation. -/
inductive ReserveResult
  | ok
  | notFound (productId : Nat)
  | insufficientStock (productId : Nat) (available requested : ℤ)
deriving DecidableEq, Repr

/-- `reserve(productId, quantity)`: the per-line product lookup, stock
check and decrement inlined in the placement loop
(part_002 lines 101-113 / orderRoutes.js lines 44-59). -/
def reserve (prods : List (Nat × Product)) (pid : Nat) (q : ℤ) :
    List (Nat × Product) × ReserveResult :=
  match findById prods pid with
  | none => (prods, .notFound pid)
  | some product =>
    if product.stock < q then
      (prods, .insufficientStock pid product.stock q)
    else
      (saveById prods pid { product with stock := product.stock - q }, .ok)

/-- `restock(productId, quantity)`: one iteration of the cancellation
restock loop (part_002 lines 201-209); a missing product is skipped
(only a warning is logged). -/
def restock (prods : List (Nat × Product)) (pid : Nat) (q : ℤ) :
    List (Nat × Product) :=
  match findById prods pid with
  | none => prods
  | some product =>
    saveById prods pid { product with stock := product.stock + q }

/-! ## Order placement (part_002 lines 76-149) -/

/-- Failure of one iteration of the placement loop. -/
inductive LineFailure
  | productNotFound (pid : Nat)
  | insufficientStock (pid : Nat) (available : ℤ)
deriving DecidableEq, Repr

/-- The `for (const item of cartItems)` loop of the placement route
(part_002 lines 100-124): per line, `Product.findById`, the
insufficient-stock check, the decrement-and-save, the snapshot push and
the running-total accumulation.  On failure the route returns at once,
keeping every stock write already saved. -/
def processItems (prods : List (Nat × Product)) (cart : List CartLine)
    (accItems : List OrderItem) (accTotal : ℚ) :
    List (Nat × Product) × (List OrderItem × ℚ ⊕ LineFailure) :=
  match cart with
  | [] => (prods, Sum.inl (accItems, accTotal))
  | item :: rest =>
    match findById prods item.productId with
    | none => (prods, Sum.inr (.productNotFound item.productId))
    | some product =>
      if product.stock < item.quantity then
        (prods, Sum.inr (.insufficientStock item.productId product.stock))
      else
        processItems
          (saveById prods item.productId
            { product with stock := product.stock - item.quantity })
          rest
          (accItems ++ [{ productId := item.productId, name := product.name,
                          quantity := item.quantity, price := product.price,
                          image := product.image }])
          (accTotal + product.price * item.quantity)

/-- `Number.prototype.toFixed(2)` applied to the running total
(part_002 line 130): round to the nearest hundredth, ties to the larger
value (ECMA-262). -/
def toFixed2 (x : ℚ) : ℚ := (⌊x * 100 + 1 / 2⌋ : ℚ) / 100

/-- The five recognized order statuses (part_002 lines 59, 194). -/
def validStatuses : List String :=
  ["pending", "confirmed", "shipped", "delivered", "cancelled"]

/-- Mongoose validation of `orderSchema` (part_002 lines 3-62), run by
`newOrder.save()`: required non-empty strings, `quantity ≥ 1`,
`price ≥ 0`, `totalAmount ≥ 0`, status in the enum. -/
def validOrderDoc (o : Order) : Bool :=
  o.items.all (fun it =>
      decide (1 ≤ it.quantity) && decide (0 ≤ it.price) && !(it.name == "")) &&
  decide (0 ≤ o.totalAmount) &&
  !(o.paymentMethod == "") &&
  !(o.shippingAddress == "") &&
  validStatuses.contains o.status

/-- Typed outcome of the placement route, one constructor per
`res.status(...)` exit. -/
inductive PlaceResult
  | ok (orderId : Nat)
  | userNotFound
  | missingShippingAddress
  | emptyCart
  | productNotFound (pid : Nat)
  | insufficientStock (pid : Nat) (available : ℤ)
  | serverError
deriving DecidableEq, Repr

/-- HTTP status attached to each placement outcome by the route. -/
def placeHttpStatus : PlaceResult → Nat
  | .ok _ => 201
  | .userNotFound => 404
  | .missingShippingAddress => 400
  | .emptyCart => 400
  | .productNotFound _ => 404
  | .insufficientStock _ _ => 400
  | .serverError => 500

def lineFailureResult : LineFailure → PlaceResult
  | .productNotFound pid => .productNotFound pid
  | .insufficientStock pid avail => .insufficientStock pid avail

/-- The request body of `POST /api/orders`: the route reads only
`paymentMethod` and `cartItems` (part_002 line 77); the shipping address
always comes from the user profile. -/
structure PlaceRequest where
  userId : Nat
  paymentMethod : String
  cartItems : List CartLine
deriving DecidableEq, Repr

/-- `POST /api/orders` (part_002 lines 76-149): find the user, check the
profile shipping address, check for an empty cart, run the per-line
loop, then build and save the order and clear the cart.  A failed
`newOrder.save()` (schema validation) is caught and surfaced as a 500
without reverting the stock writes. -/
def placeOrder (st : State) (req : PlaceRequest) : State × PlaceResult :=
  match findById st.users req.userId with
  | none => (st, .userNotFound)
  | some user =>
    if user.address = "" ∨ user.address = "N/A" then
      (st, .missingShippingAddress)
    else if req.cartItems.isEmpty then
      (st, .emptyCart)
    else
      match processItems st.products req.cartItems [] 0 with
      | (prods, Sum.inr failure) =>
        ({ st with products := prods }, lineFailureResult failure)
      | (prods, Sum.inl (orderProducts, totalAmount)) =>
        let newOrder : Order :=
          { userId := req.userId
            items := orderProducts
            totalAmount := toFixed2 totalAmount
            paymentMethod := req.paymentMethod
            shippingAddress := user.address
            status := "pending" }
        if validOrderDoc newOrder then
          ({ st with
              products := prods
              orders := st.orders ++ [(st.orders.length, newOrder)]
              users := saveById st.users req.userId { user with cart := [] } },
           .ok st.orders.length)
        else
          ({ st with products := prods }, .serverError)

/-! ## Order status update (part_002 lines 183-227) -/

/-- Typed outcome of the status-update route. -/
inductive UpdateResult
  | ok
  | orderNotFound
  | invalidStatus
  | invalidTransition
deriving DecidableEq, Repr

/-- HTTP status attached to each status-update outcome by the route. -/
def updateHttpStatus : UpdateResult → Nat
  | .ok => 200
  | .orderNotFound => 404
  | .invalidStatus => 400
  | .invalidTransition => 400

/-- The cancellation restock loop
(`for (const item of order.items)`, part_002 lines 201-209). -/
def restockItems (prods : List (Nat × Product)) :
    List OrderItem → List (Nat × Product)
  | [] => prods
  | it :: rest => restockItems (restock prods it.productId it.quantity) rest

/-- `PUT /admin/:id/status` (part_002 lines 183-227): find the order,
validate the status string, restock once when entering `cancelled`,
reject leaving `cancelled`, then save the new status. -/
def updateOrderStatus (st : State) (id : Nat) (status : String) :
    State × UpdateResult :=
  match findById st.orders id with
  | none => (st, .orderNotFound)
  | some order =>
    if ! validStatuses.contains status then
      (st, .invalidStatus)
    else if status = "cancelled" ∧ order.status ≠ "cancelled" then
      ({ st with
          products := restockItems st.products order.items
          orders := saveById st.orders id { order with status := status } },
       .ok)
    else if order.status = "cancelled" ∧ status ≠ "cancelled" then
      (st, .invalidTransition)
    else
      ({ st with orders := saveById st.orders id { order with status := status } },
       .ok)

/-! ## Operation sequences -/

/-- A core operation: order placement or admin status update. -/
inductive Op
  | place (req : PlaceRequest)
  | updateStatus (id : Nat) (status : String)
deriving Repr

def applyOp (st : State) : Op → State
  | .place req => (placeOrder st req).1
  | .updateStatus id status => (updateOrderStatus st id status).1

def runOps (st : State) : List Op → State
  | [] => st
  | op :: rest => runOps (applyOp st op) rest

/-- Product price update, the price assignment of `PUT /api/products/:id`
(part_003 lines 67-90). -/
def setProductPrice (st : State) (pid : Nat) (price : ℚ) : State :=
  match findById st.products pid with
  | none => st
  | some product =>
    { st with products := saveById st.products pid { product with price := price } }

/-- Core operations extended with product price updates, used to state
snapshot immutability. -/
inductive OpX
  | place (req : PlaceRequest)
  | updateStatus (id : Nat) (status : String)
  | setPrice (pid : Nat) (price : ℚ)
deriving Repr

def applyOpX (st : State) : OpX → State
  | .place req => (placeOrder st req).1
  | .updateStatus id status => (updateOrderStatus st id status).1
  | .setPrice pid price => setProductPrice st pid price

def runOpsX (st : State) : List OpX → State
  | [] => st
  | op :: rest => runOpsX (applyOpX st op) rest

/-! ## Invariants and derived quantities -/

/-- Every product in the database has non-negative stock. -/
def stocksNonneg (st : State) : Prop :=
  ∀ e ∈ st.products, (0 : ℤ) ≤ (Prod.snd e).stock

/-- Every persisted order satisfies the `min: 1` quantity constraint of
`orderSchema` (part_002 lines 22-26), which mongoose enforces on every
save. -/
def ordersQtyValid (st : State) : Prop :=
  ∀ e ∈ st.orders, ∀ it ∈ (Prod.snd e).items, (1 : ℤ) ≤ it.quantity

instance (st : State) : Decidable (stocksNonneg st) := by
  unfold stocksNonneg; infer_instance

instance (st : State) : Decidable (ordersQtyValid st) := by
  unfold ordersQtyValid; infer_instance

/-- Recomputed sum of an order's line snapshots. -/
def sumItems (items : List OrderItem) : ℚ :=
  (items.map (fun it => it.price * (it.quantity : ℚ))).sum

/-- Total quantity the lines of an order request for one product. -/
def lineQty : List OrderItem → Nat → ℤ
  | [], _ => 0
  | it :: rest, pid =>
    (if it.productId = pid then it.quantity else 0) + lineQty rest pid

/-! ## Interleaving model of two concurrent reservations

The placement loop performs a read (`Product.findById`) and, later, a
separate write (`product.save()` with the stock computed from the read
document).  Under concurrent requests the two phases of each request can
interleave; each commit writes back `read - q` computed from its own,
possibly stale, read. -/

/-- Shared product stock plus the per-request local state of two
concurrent executions of the read-then-write reservation
(part_002 lines 101-113). -/
structure ConcState where
  stock : ℤ
  read1 : Option ℤ
  read2 : Option ℤ
  res1 : Option Bool
  res2 : Option Bool
deriving DecidableEq, Repr

/-- An atomic event: one request's `findById` read or its
check-and-`save` commit. -/
inductive ConcEv
  | read1
  | read2
  | commit1
  | commit2
deriving DecidableEq, Repr

/-- One event of the interleaved execution: `read` snapshots the current
stock into the request's product document; `commit` runs the
insufficient-stock check on the snapshot and, if it passes, saves
`snapshot - q` as the new stock. -/
def concStep (q1 q2 : ℤ) (s : ConcState) : ConcEv → ConcState
  | .read1 => { s with read1 := some s.stock }
  | .read2 => { s with read2 := some s.stock }
  | .commit1 =>
    match s.read1 with
    | none => s
    | some r =>
      if r < q1 then { s with res1 := some false }
      else { s with stock := r - q1, res1 := some true }
  | .commit2 =>
    match s.read2 with
    | none => s
    | some r =>
      if r < q2 then { s with res2 := some false }
      else { s with stock := r - q2, res2 := some true }

def concRun (q1 q2 : ℤ) (s : ConcState) : List ConcEv → ConcState
  | [] => s
  | e :: rest => concRun q1 q2 (concStep q1 q2 s e) rest

attribute [local semireducible] Rat.add Rat.mul Rat.inv Rat.sub

/-! ## Claim theorems -/

/-- C1: order placement is NOT all-or-nothing in the code.  On the
spec's own scenario (product 1 with stock 5 requested at quantity 3,
product 2 with stock 2 requested at quantity 10) the placement fails
with InsufficientStock for product 2 and persists no order, but product
1's stock has already been decremented to 2 and is never restored: the
compensating restock the claim requires does not exist in the source. -/
theorem placement_keeps_earlier_decrements :
    (placeOrder
        { products := [(1, ⟨"A", 10, "imgA", 5⟩), (2, ⟨"B", 7, "imgB", 2⟩)]
          users := [(1, ⟨"u", "addr", []⟩)]
          orders := [] }
        ⟨1, "COD", [⟨1, 3⟩, ⟨2, 10⟩]⟩).2 = .insufficientStock 2 2 ∧
    findById (placeOrder
        { products := [(1, ⟨"A", 10, "imgA", 5⟩), (2, ⟨"B", 7, "imgB", 2⟩)]
          users := [(1, ⟨"u", "addr", []⟩)]
          orders := [] }
        ⟨1, "COD", [⟨1, 3⟩, ⟨2, 10⟩]⟩).1.products 1 = some ⟨"A", 10, "imgA", 2⟩ ∧
    (placeOrder
        { products := [(1, ⟨"A", 10, "imgA", 5⟩), (2, ⟨"B", 7, "imgB", 2⟩)]
          users := [(1, ⟨"u", "addr", []⟩)]
          orders := [] }
        ⟨1, "COD", [⟨1, 3⟩, ⟨2, 10⟩]⟩).1.orders = [] := by
  refine ⟨?_, ?_, ?_⟩ <;> decide

/-- C7: the read-then-write reservation is not atomic.  With stock 10
and two concurrent reservations of quantity 6 each, the interleaving
read1; read2; commit1; commit2 lets both requests pass the stock check
against the same stale read: both succeed and the final stock is 4,
although only one had sufficient stock — the code does not serialize the
check and the decrement. -/
theorem concurrent_reservations_both_succeed :
    concRun 6 6 ⟨10, none, none, none, none⟩
        [.read1, .read2, .commit1, .commit2]
      = ⟨4, some 10, some 10, some true, some true⟩ := by
  decide

/-- C4: `reserve(p, q)` fails with NotFound when the product is missing;
fails with InsufficientStock reporting the available amount when
`stock < q`, leaving the state unchanged; and otherwise succeeds with
the stock decremented by exactly `q` and every other product
untouched. -/
theorem reserve_spec (prods : List (Nat × Product)) (pid : Nat) (q : ℤ) :
    (findById prods pid = none →
      reserve prods pid q = (prods, .notFound pid)) ∧
    (∀ p, findById prods pid = some p → p.stock < q →
      reserve prods pid q = (prods, .insufficientStock pid p.stock q)) ∧
    (∀ p, findById prods pid = some p → ¬ p.stock < q →
      (reserve prods pid q).2 = .ok ∧
      findById (reserve prods pid q).1 pid
        = some { p with stock := p.stock - q } ∧
      ∀ pid2, pid2 ≠ pid →
        findById (reserve prods pid q).1 pid2 = findById prods pid2) := by
  refine ⟨fun h => ?_, fun p hp hlt => ?_, fun p hp hge => ?_⟩
  · rw [reserve, h]
  · rw [reserve, hp]
    simp [hlt]
  · have e : reserve prods pid q
        = (saveById prods pid { p with stock := p.stock - q }, .ok) := by
      rw [reserve, hp]
      simp [hge]
    rw [e]
    exact ⟨rfl, findById_saveById_self _ hp,
      fun pid2 hne => findById_saveById_ne _ hne⟩

/-- Witness for C4: the three branches of `reserve_spec` at concrete
inputs (missing product, stock 5 against request 9, stock 5 against
request 2). -/
theorem reserve_spec_witness :
    reserve [] 1 2 = ([], .notFound 1) ∧
    reserve [(1, ⟨"A", 10, "i", 5⟩)] 1 9
      = ([(1, ⟨"A", 10, "i", 5⟩)], .insufficientStock 1 5 9) ∧
    (reserve [(1, ⟨"A", 10, "i", 5⟩)] 1 2).2 = .ok ∧
    findById (reserve [(1, ⟨"A", 10, "i", 5⟩)] 1 2).1 1
      = some ⟨"A", 10, "i", 3⟩ := by
  have h1 := (reserve_spec [] 1 2).1 rfl
  have h2 := (reserve_spec [(1, ⟨"A", 10, "i", 5⟩)] 1 9).2.1
    ⟨"A", 10, "i", 5⟩ rfl (by decide)
  have h3 := (reserve_spec [(1, ⟨"A", 10, "i", 5⟩)] 1 2).2.2
    ⟨"A", 10, "i", 5⟩ rfl (by decide)
  exact ⟨h1, h2, h3.1, h3.2.1⟩

/-- C8: for a product with non-negative stock at least `q`,
`reserve(p, q)` immediately followed by `restock(p, q)` restores every
product lookup — in particular `p`'s stock — to its value before the
pair of operations. -/
theorem reserve_restock_roundtrip (prods : List (Nat × Product))
    (pid : Nat) (q : ℤ) (p : Product) (h1 : findById prods pid = some p)
    (_h0 : 0 ≤ p.stock) (h2 : q ≤ p.stock) :
    ∀ pid2, findById (restock (reserve prods pid q).1 pid q) pid2
      = findById prods pid2 := by
  have hge : ¬ p.stock < q := not_lt.mpr h2
  have hres : reserve prods pid q
      = (saveById prods pid { p with stock := p.stock - q }, .ok) := by
    rw [reserve, h1]
    simp [hge]
  have hfound : findById (saveById prods pid { p with stock := p.stock - q }) pid
      = some { p with stock := p.stock - q } :=
    findById_saveById_self _ h1
  intro pid2
  rw [hres, restock, hfound]
  simp only [sub_add_cancel]
  by_cases hpid : pid2 = pid
  · subst hpid
    rw [findById_saveById_self _ hfound, h1]
  · rw [findById_saveById_ne _ hpid, findById_saveById_ne _ hpid]

/-- Witness for C8: stock 5, reserve 2 then restock 2, lookup
restored. -/
theorem reserve_restock_roundtrip_witness :
    findById (restock (reserve [(1, ⟨"A", 10, "i", 5⟩)] 1 2).1 1 2) 1
      = findById [(1, ⟨"A", 10, "i", 5⟩)] 1 :=
  reserve_restock_roundtrip [(1, ⟨"A", 10, "i", 5⟩)] 1 2 ⟨"A", 10, "i", 5⟩
    rfl (by decide) (by decide) 1

/-- C3: `cancelled` is terminal.  For an order whose status is
`cancelled`, a status update to any recognized status other than
`cancelled` fails with InvalidTransition, a 400 error, and leaves the
whole state — in particular the order's status — unchanged. -/
theorem cancelled_is_terminal (st : State) (id : Nat) (order : Order)
    (newStatus : String) (h1 : findById st.orders id = some order)
    (h2 : order.status = "cancelled")
    (h3 : validStatuses.contains newStatus = true)
    (h4 : newStatus ≠ "cancelled") :
    updateOrderStatus st id newStatus = (st, .invalidTransition) ∧
    updateHttpStatus (updateOrderStatus st id newStatus).2 = 400 := by
  have hmain : updateOrderStatus st id newStatus = (st, .invalidTransition) := by
    rw [updateOrderStatus, h1, h3]
    simp only [Bool.not_true, Bool.false_eq_true, if_false]
    rw [if_neg fun hc => h4 hc.1, if_pos ⟨h2, h4⟩]
  refine ⟨hmain, ?_⟩
  rw [hmain]
  rfl

/-- Witness for C3: a cancelled order updated to "shipped" is rejected
with InvalidTransition and the state is unchanged. -/
theorem cancelled_is_terminal_witness :
    updateOrderStatus
        { products := []
          users := []
          orders := [(0, ⟨1, [⟨1, "A", 1, 10, "i"⟩], 10, "COD", "addr", "cancelled"⟩)] }
        0 "shipped"
      = ({ products := []
           users := []
           orders := [(0, ⟨1, [⟨1, "A", 1, 10, "i"⟩], 10, "COD", "addr", "cancelled"⟩)] },
         .invalidTransition) ∧
    updateHttpStatus (updateOrderStatus
        { products := []
          users := []
          orders := [(0, ⟨1, [⟨1, "A", 1, 10, "i"⟩], 10, "COD", "addr", "cancelled"⟩)] }
        0 "shipped").2 = 400 :=
  cancelled_is_terminal
    { products := []
      users := []
      orders := [(0, ⟨1, [⟨1, "A", 1, 10, "i"⟩], 10, "COD", "addr", "cancelled"⟩)] }
    0 ⟨1, [⟨1, "A", 1, 10, "i"⟩], 10, "COD", "addr", "cancelled"⟩ "shipped"
    rfl rfl (by decide) (by decide)

theorem restock_lookup (prods : List (Nat × Product)) (k : Nat) (q : ℤ)
    (pid : Nat) :
    findById (restock prods k q) pid
      = (findById prods pid).map
          (fun p => if k = pid then { p with stock := p.stock + q } else p) := by
  cases hk : findById prods k with
  | none =>
    rw [restock, hk]
    by_cases hkp : k = pid
    · subst hkp
      rw [hk]
      rfl
    · cases h2 : findById prods pid <;> simp [hkp, h2]
  | some pk =>
    rw [restock, hk]
    by_cases hkp : k = pid
    · subst hkp
      rw [findById_saveById_self _ hk, hk]
      simp
    · rw [findById_saveById_ne _ fun h => hkp h.symm]
      cases h2 : findById prods pid <;> simp [hkp, h2]

theorem restockItems_lookup :
    ∀ (items : List OrderItem) (prods : List (Nat × Product)) (pid : Nat),
    findById (restockItems prods items) pid
      = (findById prods pid).map
          (fun p => { p with stock := p.stock + lineQty items pid }) := by
  intro items
  induction items with
  | nil =>
    intro prods pid
    cases h : findById prods pid <;> simp [restockItems, lineQty, h]
  | cons it rest ih =>
    intro prods pid
    rw [restockItems, ih, restock_lookup, Option.map_map]
    cases hp : findById prods pid with
    | none => rfl
    | some p =>
      by_cases hk : it.productId = pid
      · simp [hk, lineQty, add_assoc]
      · simp [hk, lineQty]

/-- C2: cancelling a non-cancelled order restocks each product by the
total quantity of its line snapshots, exactly once: the first transition
to `cancelled` succeeds, adds `lineQty` to the product's stock and marks
the order `cancelled`; a second `cancelled` request on the now-cancelled
order leaves every product's stock untouched. -/
theorem cancellation_restocks_exactly_once (st : State) (id : Nat)
    (order : Order) (pid : Nat) (p : Product)
    (h1 : findById st.orders id = some order)
    (h2 : order.status ≠ "cancelled")
    (h3 : findById st.products pid = some p) :
    (updateOrderStatus st id "cancelled").2 = .ok ∧
    findById (updateOrderStatus st id "cancelled").1.products pid
      = some { p with stock := p.stock + lineQty order.items pid } ∧
    findById (updateOrderStatus st id "cancelled").1.orders id
      = some { order with status := "cancelled" } ∧
    (updateOrderStatus (updateOrderStatus st id "cancelled").1 id "cancelled").1.products
      = (updateOrderStatus st id "cancelled").1.products := by
  have hc : validStatuses.contains "cancelled" = true := by decide
  have e : updateOrderStatus st id "cancelled"
      = ({ st with
            products := restockItems st.products order.items
            orders := saveById st.orders id { order with status := "cancelled" } },
         .ok) := by
    rw [updateOrderStatus, h1, hc]
    simp only [Bool.not_true, Bool.false_eq_true, if_false]
    rw [if_pos ⟨trivial, h2⟩]
  have horder2 : findById ((updateOrderStatus st id "cancelled").1).orders id
      = some { order with status := "cancelled" } := by
    rw [e]
    exact findById_saveById_self _ h1
  refine ⟨by rw [e], ?_, horder2, ?_⟩
  · rw [e]
    show findById (restockItems st.products order.items) pid = _
    rw [restockItems_lookup, h3]
    rfl
  · generalize (updateOrderStatus st id "cancelled").1 = st1 at horder2 ⊢
    rw [updateOrderStatus, horder2, hc]
    simp only [Bool.not_true, Bool.false_eq_true, if_false]
    rw [if_neg (fun hcc => hcc.2 rfl : ¬ (True ∧ "cancelled" ≠ "cancelled"))]
    rw [if_neg (fun hcc => hcc.2 rfl : ¬ (True ∧ "cancelled" ≠ "cancelled"))]

/-- Witness for C2: an order with one line (product 1, quantity 2) and a
product with stock 5; cancelling restocks to 7 once, a second
cancellation changes nothing. -/
theorem cancellation_restocks_exactly_once_witness :
    (updateOrderStatus
        { products := [(1, ⟨"A", 10, "i", 5⟩)]
          users := []
          orders := [(0, ⟨1, [⟨1, "A", 2, 10, "i"⟩], 20, "COD", "addr", "pending"⟩)] }
        0 "cancelled").2 = .ok ∧
    findById (updateOrderStatus
        { products := [(1, ⟨"A", 10, "i", 5⟩)]
          users := []
          orders := [(0, ⟨1, [⟨1, "A", 2, 10, "i"⟩], 20, "COD", "addr", "pending"⟩)] }
        0 "cancelled").1.products 1 = some ⟨"A", 10, "i", 7⟩ ∧
    findById (updateOrderStatus
        { products := [(1, ⟨"A", 10, "i", 5⟩)]
          users := []
          orders := [(0, ⟨1, [⟨1, "A", 2, 10, "i"⟩], 20, "COD", "addr", "pending"⟩)] }
        0 "cancelled").1.orders 0
      = some ⟨1, [⟨1, "A", 2, 10, "i"⟩], 20, "COD", "addr", "cancelled"⟩ ∧
    (updateOrderStatus (updateOrderStatus
        { products := [(1, ⟨"A", 10, "i", 5⟩)]
          users := []
          orders := [(0, ⟨1, [⟨1, "A", 2, 10, "i"⟩], 20, "COD", "addr", "pending"⟩)] }
        0 "cancelled").1 0 "cancelled").1.products
      = (updateOrderStatus
        { products := [(1, ⟨"A", 10, "i", 5⟩)]
          users := []
          orders := [(0, ⟨1, [⟨1, "A", 2, 10, "i"⟩], 20, "COD", "addr", "pending"⟩)] }
        0 "cancelled").1.products :=
  cancellation_restocks_exactly_once
    { products := [(1, ⟨"A", 10, "i", 5⟩)]
      users := []
      orders := [(0, ⟨1, [⟨1, "A", 2, 10, "i"⟩], 20, "COD", "addr", "pending"⟩)] }
    0 ⟨1, [⟨1, "A", 2, 10, "i"⟩], 20, "COD", "addr", "pending"⟩ 1 ⟨"A", 10, "i", 5⟩
    rfl (by decide) rfl

/-- C9: when the owner exists but has no usable profile shipping address
(empty or the "N/A" placeholder), order placement is rejected with
MissingShippingAddress, a 400 error, and the state — stock and orders —
is completely unchanged.  The route takes no address from the request
body at all, so "none supplied in the request" always holds. -/
theorem missing_shipping_address_rejects (st : State) (uid : Nat)
    (pm : String) (cart : List CartLine) (user : User)
    (h1 : findById st.users uid = some user)
    (h2 : user.address = "" ∨ user.address = "N/A") :
    placeOrder st ⟨uid, pm, cart⟩ = (st, .missingShippingAddress) ∧
    placeHttpStatus (placeOrder st ⟨uid, pm, cart⟩).2 = 400 := by
  have e : placeOrder st ⟨uid, pm, cart⟩ = (st, .missingShippingAddress) := by
    simp only [placeOrder, h1]
    rw [if_pos h2]
  refine ⟨e, ?_⟩
  rw [e]
  rfl

/-- Witness for C9: a user whose registered address is "N/A" cannot
place an order, and the state is unchanged. -/
theorem missing_shipping_address_rejects_witness :
    placeOrder
        { products := [(1, ⟨"A", 10, "i", 5⟩)]
          users := [(3, ⟨"u", "N/A", []⟩)]
          orders := [] }
        ⟨3, "COD", [⟨1, 1⟩]⟩
      = ({ products := [(1, ⟨"A", 10, "i", 5⟩)]
           users := [(3, ⟨"u", "N/A", []⟩)]
           orders := [] }, .missingShippingAddress) ∧
    placeHttpStatus (placeOrder
        { products := [(1, ⟨"A", 10, "i", 5⟩)]
          users := [(3, ⟨"u", "N/A", []⟩)]
          orders := [] }
        ⟨3, "COD", [⟨1, 1⟩]⟩).2 = 400 :=
  missing_shipping_address_rejects
    { products := [(1, ⟨"A", 10, "i", 5⟩)]
      users := [(3, ⟨"u", "N/A", []⟩)]
      orders := [] }
    3 "COD" [⟨1, 1⟩] ⟨"u", "N/A", []⟩ rfl (Or.inr rfl)

/-- C10: a line quantity `q ≤ 0` is not rejected by the
insufficient-stock check (`stock < q` is false when `stock ≥ 0 ≥ q`);
the product's stock is saved as `stock - q` — an increase for negative
`q` — and only then does the Order schema's `min: 1` quantity constraint
reject `newOrder.save()`, surfaced as a 500, with no order persisted and
the stock change left in place. -/
theorem nonpositive_quantity_mutates_stock (st : State) (uid : Nat)
    (pm : String) (pid : Nat) (q : ℤ) (user : User) (p : Product)
    (h1 : findById st.users uid = some user)
    (h2 : ¬ (user.address = "" ∨ user.address = "N/A"))
    (h3 : findById st.products pid = some p)
    (h4 : 0 ≤ p.stock) (h5 : q ≤ 0) :
    (placeOrder st ⟨uid, pm, [⟨pid, q⟩]⟩).2 = .serverError ∧
    placeHttpStatus (placeOrder st ⟨uid, pm, [⟨pid, q⟩]⟩).2 = 500 ∧
    findById (placeOrder st ⟨uid, pm, [⟨pid, q⟩]⟩).1.products pid
      = some { p with stock := p.stock - q } ∧
    p.stock ≤ p.stock - q ∧
    (placeOrder st ⟨uid, pm, [⟨pid, q⟩]⟩).1.orders = st.orders := by
  have hnl : ¬ p.stock < q := not_lt.mpr (le_trans h5 h4)
  have eproc : processItems st.products [⟨pid, q⟩] [] 0
      = (saveById st.products pid { p with stock := p.stock - q },
         Sum.inl ([⟨pid, p.name, q, p.price, p.image⟩], 0 + p.price * q)) := by
    simp only [processItems, h3]
    rw [if_neg hnl]
    simp [processItems]
  have hval : validOrderDoc
      { userId := uid
        items := [⟨pid, p.name, q, p.price, p.image⟩]
        totalAmount := toFixed2 (0 + p.price * q)
        paymentMethod := pm
        shippingAddress := user.address
        status := "pending" } = false := by
    have hq1 : decide ((1:ℤ) ≤ q) = false := decide_eq_false (by omega)
    simp [validOrderDoc, hq1]
  have e : placeOrder st ⟨uid, pm, [⟨pid, q⟩]⟩
      = ({ st with products := saveById st.products pid { p with stock := p.stock - q } },
         .serverError) := by
    simp only [placeOrder, h1]
    rw [if_neg h2]
    rw [if_neg (by simp : ¬ ([(⟨pid, q⟩ : CartLine)].isEmpty = true))]
    rw [eproc]
    simp only [hval, Bool.false_eq_true, if_false]
  refine ⟨by rw [e], by rw [e]; rfl, ?_, by omega, by rw [e]⟩
  rw [e]
  exact findById_saveById_self _ h3

/-- Witness for C10: product stock 5, request quantity -3: the placement
returns a 500, no order is stored, and the stock has been raised
to 8. -/
theorem nonpositive_quantity_mutates_stock_witness :
    (placeOrder
        { products := [(1, ⟨"A", 10, "i", 5⟩)]
          users := [(3, ⟨"u", "addr", []⟩)]
          orders := [] }
        ⟨3, "COD", [⟨1, -3⟩]⟩).2 = .serverError ∧
    placeHttpStatus (placeOrder
        { products := [(1, ⟨"A", 10, "i", 5⟩)]
          users := [(3, ⟨"u", "addr", []⟩)]
          orders := [] }
        ⟨3, "COD", [⟨1, -3⟩]⟩).2 = 500 ∧
    findById (placeOrder
        { products := [(1, ⟨"A", 10, "i", 5⟩)]
          users := [(3, ⟨"u", "addr", []⟩)]
          orders := [] }
        ⟨3, "COD", [⟨1, -3⟩]⟩).1.products 1 = some ⟨"A", 10, "i", 8⟩ ∧
    (5 : ℤ) ≤ 8 ∧
    (placeOrder
        { products := [(1, ⟨"A", 10, "i", 5⟩)]
          users := [(3, ⟨"u", "addr", []⟩)]
          orders := [] }
        ⟨3, "COD", [⟨1, -3⟩]⟩).1.orders = [] :=
  nonpositive_quantity_mutates_stock
    { products := [(1, ⟨"A", 10, "i", 5⟩)]
      users := [(3, ⟨"u", "addr", []⟩)]
      orders := [] }
    3 "COD" 1 (-3) ⟨"u", "addr", []⟩ ⟨"A", 10, "i", 5⟩
    rfl (by decide) rfl (by decide) (by decide)

theorem validOrderDoc_quantity {o : Order} (h : validOrderDoc o = true) :
    ∀ it ∈ o.items, (1 : ℤ) ≤ it.quantity := by
  intro it hit
  simp only [validOrderDoc, Bool.and_eq_true, List.all_eq_true,
    decide_eq_true_eq] at h
  exact (h.1.1.1.1 it hit).1.1

theorem processItems_fst_nonneg :
    ∀ (cart : List CartLine) (prods : List (Nat × Product))
      (acc : List OrderItem) (tot : ℚ),
    (∀ e ∈ prods, (0 : ℤ) ≤ (Prod.snd e).stock) →
    ∀ e ∈ (processItems prods cart acc tot).1, (0 : ℤ) ≤ (Prod.snd e).stock := by
  intro cart
  induction cart with
  | nil => exact fun prods acc tot h => h
  | cons item rest ih =>
    intro prods acc tot h
    rw [processItems]
    split
    · exact h
    · rename_i product hp
      split
      · exact h
      · rename_i hlt
        apply ih
        intro e he
        rcases mem_saveById he with rfl | he2
        · show (0 : ℤ) ≤ product.stock - item.quantity
          have h0 : (0 : ℤ) ≤ product.stock := h _ (findById_mem hp)
          omega
        · exact h _ he2

theorem restock_fst_nonneg (prods : List (Nat × Product)) (k : Nat) (q : ℤ)
    (h : ∀ e ∈ prods, (0 : ℤ) ≤ (Prod.snd e).stock) (hq : 0 ≤ q) :
    ∀ e ∈ restock prods k q, (0 : ℤ) ≤ (Prod.snd e).stock := by
  rw [restock]
  split
  · exact h
  · rename_i product hp
    intro e he
    rcases mem_saveById he with rfl | he2
    · show (0 : ℤ) ≤ product.stock + q
      have h0 : (0 : ℤ) ≤ product.stock := h _ (findById_mem hp)
      omega
    · exact h _ he2

theorem restockItems_fst_nonneg :
    ∀ (items : List OrderItem) (prods : List (Nat × Product)),
    (∀ e ∈ prods, (0 : ℤ) ≤ (Prod.snd e).stock) →
    (∀ it ∈ items, (0 : ℤ) ≤ it.quantity) →
    ∀ e ∈ restockItems prods items, (0 : ℤ) ≤ (Prod.snd e).stock := by
  intro items
  induction items with
  | nil => exact fun prods h _ => h
  | cons it rest ih =>
    intro prods h hq
    rw [restockItems]
    apply ih
    · exact restock_fst_nonneg prods it.productId it.quantity h
        (hq it (by simp))
    · intro it2 h2
      exact hq it2 (by simp [h2])

theorem placeOrder_preserves (st : State) (req : PlaceRequest)
    (h1 : stocksNonneg st) (h2 : ordersQtyValid st) :
    stocksNonneg (placeOrder st req).1 ∧ ordersQtyValid (placeOrder st req).1 := by
  rw [placeOrder]
  split
  · exact ⟨h1, h2⟩
  · split
    · exact ⟨h1, h2⟩
    · split
      · exact ⟨h1, h2⟩
      · split
        · rename_i prods failure hpr
          refine ⟨?_, h2⟩
          have := processItems_fst_nonneg req.cartItems st.products [] 0 h1
          rw [hpr] at this
          exact this
        · rename_i prods pr items tot hpr
          dsimp only []
          split
          · rename_i hv
            constructor
            · have := processItems_fst_nonneg req.cartItems st.products [] 0 h1
              rw [hpr] at this
              exact this
            · intro e he it hit
              rcases List.mem_append.mp he with he2 | he2
              · exact h2 _ he2 it hit
              · have : e = (st.orders.length, _) := List.mem_singleton.mp he2
                subst this
                exact validOrderDoc_quantity hv it hit
          · refine ⟨?_, h2⟩
            have := processItems_fst_nonneg req.cartItems st.products [] 0 h1
            rw [hpr] at this
            exact this

theorem updateOrderStatus_preserves (st : State) (id : Nat) (status : String)
    (h1 : stocksNonneg st) (h2 : ordersQtyValid st) :
    stocksNonneg (updateOrderStatus st id status).1 ∧
    ordersQtyValid (updateOrderStatus st id status).1 := by
  rw [updateOrderStatus]
  split
  · exact ⟨h1, h2⟩
  · rename_i order ho
    have hsave : ∀ it ∈ ({ order with status := status } : Order).items,
        (1 : ℤ) ≤ it.quantity :=
      fun it hit => h2 _ (findById_mem ho) it hit
    have horders : ∀ e ∈ saveById st.orders id ({ order with status := status }),
        ∀ it ∈ (Prod.snd e).items, (1 : ℤ) ≤ it.quantity := by
      intro e he it hit
      rcases mem_saveById he with rfl | he2
      · exact hsave it hit
      · exact h2 _ he2 it hit
    split
    · exact ⟨h1, h2⟩
    · split
      · constructor
        · refine restockItems_fst_nonneg order.items st.products h1 ?_
          intro it hit
          have := h2 _ (findById_mem ho) it hit
          omega
        · exact horders
      · split
        · exact ⟨h1, h2⟩
        · exact ⟨h1, horders⟩

theorem applyOp_preserves (st : State) (op : Op)
    (h1 : stocksNonneg st) (h2 : ordersQtyValid st) :
    stocksNonneg (applyOp st op) ∧ ordersQtyValid (applyOp st op) := by
  cases op with
  | place req => exact placeOrder_preserves st req h1 h2
  | updateStatus id status => exact updateOrderStatus_preserves st id status h1 h2

theorem runOps_preserves :
    ∀ (ops : List Op) (st : State), stocksNonneg st → ordersQtyValid st →
    stocksNonneg (runOps st ops) ∧ ordersQtyValid (runOps st ops) := by
  intro ops
  induction ops with
  | nil => exact fun st h1 h2 => ⟨h1, h2⟩
  | cons op rest ih =>
    intro st h1 h2
    rw [runOps]
    have h := applyOp_preserves st op h1 h2
    exact ih _ h.1 h.2

/-- C5: starting from a database state in which every product stock is
non-negative (and, as the Order schema guarantees for every persisted
order, every stored line quantity is at least 1), every sequence of core
operations — order placements and status updates including cancellation
restocks — keeps every product stock non-negative. -/
theorem stock_nonneg_invariant (st : State)
    (h1 : stocksNonneg st) (h2 : ordersQtyValid st) :
    ∀ ops : List Op, stocksNonneg (runOps st ops) :=
  fun ops => (runOps_preserves ops st h1 h2).1

/-- Witness for C5: a concrete state run through a placement followed by
a cancellation; all stocks stay non-negative. -/
theorem stock_nonneg_invariant_witness :
    stocksNonneg (runOps
      { products := [(1, ⟨"A", 10, "i", 5⟩)]
        users := [(3, ⟨"u", "addr", []⟩)]
        orders := [] }
      [.place ⟨3, "COD", [⟨1, 2⟩]⟩, .updateStatus 0 "cancelled"]) :=
  stock_nonneg_invariant
    { products := [(1, ⟨"A", 10, "i", 5⟩)]
      users := [(3, ⟨"u", "addr", []⟩)]
      orders := [] }
    (by decide) (by decide)
    [.place ⟨3, "COD", [⟨1, 2⟩]⟩, .updateStatus 0 "cancelled"]

theorem sumItems_append (l1 l2 : List OrderItem) :
    sumItems (l1 ++ l2) = sumItems l1 + sumItems l2 := by
  simp [sumItems]

theorem processItems_total :
    ∀ (cart : List CartLine) (prods : List (Nat × Product))
      (acc : List OrderItem) (tot : ℚ)
      (prods2 : List (Nat × Product)) (items2 : List OrderItem) (tot2 : ℚ),
    processItems prods cart acc tot = (prods2, Sum.inl (items2, tot2)) →
    tot2 - sumItems items2 = tot - sumItems acc := by
  intro cart
  induction cart with
  | nil =>
    intro prods acc tot prods2 items2 tot2 h
    rw [processItems] at h
    simp only [Prod.mk.injEq, Sum.inl.injEq] at h
    obtain ⟨-, h2, h3⟩ := h
    rw [h2, h3]
  | cons item rest ih =>
    intro prods acc tot prods2 items2 tot2 h
    rw [processItems] at h
    split at h
    · simp at h
    · rename_i product hp
      split at h
      · simp at h
      · have hrec := ih _ _ _ _ _ _ h
        rw [sumItems_append] at hrec
        simp only [sumItems, List.map_cons, List.map_nil, List.sum_cons,
          List.sum_nil] at hrec ⊢
        linarith

theorem placeOrder_ok_eq (st : State) (req : PlaceRequest) (oid : Nat)
    (h : (placeOrder st req).2 = .ok oid) :
    oid = st.orders.length ∧
    ∃ user prods items tot,
      findById st.users req.userId = some user ∧
      processItems st.products req.cartItems [] 0
        = (prods, Sum.inl (items, tot)) ∧
      placeOrder st req
        = ({ st with
              products := prods
              orders := st.orders ++ [(st.orders.length,
                { userId := req.userId
                  items := items
                  totalAmount := toFixed2 tot
                  paymentMethod := req.paymentMethod
                  shippingAddress := user.address
                  status := "pending" })]
              users := saveById st.users req.userId { user with cart := [] } },
           .ok st.orders.length) := by
  rw [placeOrder] at h
  split at h
  · simp at h
  · rename_i user hu
    split at h
    · simp at h
    · rename_i haddr
      split at h
      · simp at h
      · rename_i hemp
        split at h
        · rename_i prods failure hproc
          cases failure <;> simp [lineFailureResult] at h
        · rename_i prodspair prods items tot hproc
          dsimp only [] at h
          split at h
          · rename_i hvalid
            dsimp only [] at h
            have hoid : oid = st.orders.length := by
              injection h with h2
              exact h2.symm
            refine ⟨hoid, user, prods, items, tot, hu, hproc, ?_⟩
            simp only [placeOrder, hu]
            rw [if_neg haddr, if_neg hemp, hproc]
            dsimp only []
            rw [if_pos hvalid]
          · dsimp only [] at h
            simp at h

theorem applyOpX_order_persists (st : State) (op : OpX) (oid : Nat) (o : Order)
    (h : findById st.orders oid = some o) :
    ∃ o2, findById (applyOpX st op).orders oid = some o2 ∧
      o2.items = o.items ∧ o2.totalAmount = o.totalAmount := by
  cases op with
  | place req =>
    show ∃ o2, findById (placeOrder st req).1.orders oid = some o2 ∧ _
    rw [placeOrder]
    split
    · exact ⟨o, h, rfl, rfl⟩
    · split
      · exact ⟨o, h, rfl, rfl⟩
      · split
        · exact ⟨o, h, rfl, rfl⟩
        · split
          · exact ⟨o, h, rfl, rfl⟩
          · dsimp only []
            split
            · exact ⟨o, findById_append_some h, rfl, rfl⟩
            · exact ⟨o, h, rfl, rfl⟩
  | updateStatus id2 status =>
    show ∃ o2, findById (updateOrderStatus st id2 status).1.orders oid = some o2 ∧ _
    rw [updateOrderStatus]
    split
    · exact ⟨o, h, rfl, rfl⟩
    · rename_i order ho
      have hsb : ∃ o2,
          findById (saveById st.orders id2 { order with status := status }) oid
            = some o2 ∧ o2.items = o.items ∧ o2.totalAmount = o.totalAmount := by
        by_cases hid : oid = id2
        · subst hid
          have hoo : order = o := by
            have := ho.symm.trans h
            injection this
          subst hoo
          exact ⟨{ order with status := status },
            findById_saveById_self _ h, rfl, rfl⟩
        · exact ⟨o, by rw [findById_saveById_ne _ hid]; exact h, rfl, rfl⟩
      split
      · exact ⟨o, h, rfl, rfl⟩
      · split
        · exact hsb
        · split
          · exact ⟨o, h, rfl, rfl⟩
          · exact hsb
  | setPrice pid price =>
    show ∃ o2, findById (setProductPrice st pid price).orders oid = some o2 ∧ _
    rw [setProductPrice]
    split
    · exact ⟨o, h, rfl, rfl⟩
    · exact ⟨o, h, rfl, rfl⟩

theorem runOpsX_order_persists :
    ∀ (ops : List OpX) (st : State) (oid : Nat) (o : Order),
    findById st.orders oid = some o →
    ∃ o2, findById (runOpsX st ops).orders oid = some o2 ∧
      o2.items = o.items ∧ o2.totalAmount = o.totalAmount := by
  intro ops
  induction ops with
  | nil => exact fun st oid o h => ⟨o, h, rfl, rfl⟩
  | cons op rest ih =>
    intro st oid o h
    rw [runOpsX]
    obtain ⟨o2, h2, hi, ht⟩ := applyOpX_order_persists st op oid o h
    obtain ⟨o3, h3, hi3, ht3⟩ := ih _ oid o2 h2
    exact ⟨o3, h3, hi3.trans hi, ht3.trans ht⟩

/-- C6 (amended): for every successfully placed order, the stored
totalAmount equals the toFixed(2)-ROUNDED sum of its line snapshots'
price × quantity, and both the snapshots and the stored total are
immutable under every later core operation, including later changes to
the source product's price.  (The hypothesis that the fresh order id is
unused reflects MongoDB's fresh ObjectId generation.) -/
theorem totalAmount_is_rounded_sum_and_immutable (st : State)
    (req : PlaceRequest) (oid : Nat)
    (h : (placeOrder st req).2 = .ok oid)
    (hfresh : findById st.orders st.orders.length = none) :
    ∃ o, findById (placeOrder st req).1.orders oid = some o ∧
      o.totalAmount = toFixed2 (sumItems o.items) ∧
      ∀ ops : List OpX, ∃ o2,
        findById (runOpsX (placeOrder st req).1 ops).orders oid = some o2 ∧
        o2.items = o.items ∧ o2.totalAmount = o.totalAmount := by
  obtain ⟨hoid, user, prods, items, tot, hu, hproc, heq⟩ :=
    placeOrder_ok_eq st req oid h
  subst hoid
  have htot : tot = sumItems items := by
    have hsum := processItems_total req.cartItems st.products [] 0
      prods items tot hproc
    have hnil : sumItems [] = 0 := rfl
    rw [hnil] at hsum
    linarith
  have hlook : findById (placeOrder st req).1.orders st.orders.length
      = some { userId := req.userId
               items := items
               totalAmount := toFixed2 tot
               paymentMethod := req.paymentMethod
               shippingAddress := user.address
               status := "pending" } := by
    rw [heq]
    show findById (st.orders ++ _) st.orders.length = _
    rw [findById_append_none hfresh]
    simp [findById]
  refine ⟨_, hlook, ?_, ?_⟩
  · show toFixed2 tot = toFixed2 (sumItems items)
    rw [htot]
  · intro ops
    exact runOpsX_order_persists ops _ _ _ hlook

/-- Witness for C6 (amended): a placed order with one line of price 10,
quantity 2; the stored total is toFixed2 of the snapshot sum, preserved
under any later operations. -/
theorem totalAmount_is_rounded_sum_and_immutable_witness :
    ∃ o, findById (placeOrder
        { products := [(1, ⟨"A", 10, "i", 5⟩)]
          users := [(3, ⟨"u", "addr", []⟩)]
          orders := [] }
        ⟨3, "COD", [⟨1, 2⟩]⟩).1.orders 0 = some o ∧
      o.totalAmount = toFixed2 (sumItems o.items) ∧
      ∀ ops : List OpX, ∃ o2,
        findById (runOpsX (placeOrder
            { products := [(1, ⟨"A", 10, "i", 5⟩)]
              users := [(3, ⟨"u", "addr", []⟩)]
              orders := [] }
            ⟨3, "COD", [⟨1, 2⟩]⟩).1 ops).orders 0 = some o2 ∧
        o2.items = o.items ∧ o2.totalAmount = o.totalAmount :=
  totalAmount_is_rounded_sum_and_immutable
    { products := [(1, ⟨"A", 10, "i", 5⟩)]
      users := [(3, ⟨"u", "addr", []⟩)]
      orders := [] }
    ⟨3, "COD", [⟨1, 2⟩]⟩ 0 (by decide) rfl

/-- C6 counterexample: the claim as stated — stored totalAmount equals
the exact snapshot sum — fails.  With a product priced 251/250 (1.004)
and quantity 1, placement succeeds and stores totalAmount
toFixed2(1.004) = 1, while the snapshot sum is 1.004. -/
theorem totalAmount_not_exact_sum_counterexample :
    (placeOrder
        { products := [(1, ⟨"A", 251/250, "img", 5⟩)]
          users := [(7, ⟨"u", "addr", []⟩)]
          orders := [] }
        ⟨7, "COD", [⟨1, 1⟩]⟩).2 = .ok 0 ∧
    findById (placeOrder
        { products := [(1, ⟨"A", 251/250, "img", 5⟩)]
          users := [(7, ⟨"u", "addr", []⟩)]
          orders := [] }
        ⟨7, "COD", [⟨1, 1⟩]⟩).1.orders 0
      = some ⟨7, [⟨1, "A", 1, 251/250, "img"⟩], 1, "COD", "addr", "pending"⟩ ∧
    sumItems [⟨1, "A", 1, 251/250, "img"⟩] = 251/250 ∧
    (1 : ℚ) ≠ 251/250 := by
  refine ⟨?_, ?_, ?_, ?_⟩ <;> decide

end ShopMart
